import Mathlib

/-!
Verification development for the NefitEMS serial-bus decoder.

The Python source (`NefitEMS.py`) represents raw bytes as hex strings such as
`'0xff'` and `'0x0'`; since that representation is injective on byte values we
embed bytes as natural numbers (`255` for `'0xff'`, `0` for `'0x0'`, etc.).
Stateful scanning code is embedded as explicit state passing, fallible code as
`Option`/`Except`, and Python floats as rationals.
-/

set_option maxRecDepth 4000

namespace NefitEMS

/-! ## De-stuffer (`PostProcessMessage`)

The source scans the message once keeping a `ByteRemoved` toggle: a `0xff`
entry is dropped when the toggle is off (and the toggle is switched on),
and kept when the toggle is on (switching it off).  The toggle is *not*
reset by non-`0xff` bytes. -/

def destuffGo : Bool → List Nat → List Nat
  | _, [] => []
  | byteRemoved, b :: rest =>
    if b = 255 then
      if byteRemoved then b :: destuffGo false rest
      else destuffGo true rest
    else b :: destuffGo byteRemoved rest

/-- Embeds `PostProcessMessage`: the source first tests `'0xff' in Message`
and only runs the removal loop in that case. -/
def PostProcessMessage (message : List Nat) : List Nat :=
  if 255 ∈ message then destuffGo false message else message

/-! ## CRC (`CalculateNefitEMSCRC`, `CRCOK`) -/

/-- One iteration of the source's CRC loop body, before the final xor with the
message byte: `d = 0; if crc & 0x80: crc ^= 12; d = 1; crc = (crc << 1) & 0xfe;
crc |= d`. -/
def crcCore (crc : Nat) : Nat :=
  let d : Nat := if crc &&& 0x80 ≠ 0 then 1 else 0
  let crc1 : Nat := if crc &&& 0x80 ≠ 0 then crc ^^^ 12 else crc
  ((crc1 <<< 1) &&& 0xfe) ||| d

/-- Full loop body of `CalculateNefitEMSCRC`: ends with `crc ^= int(Entry,16)`. -/
def crcStep (crc b : Nat) : Nat := crcCore crc ^^^ b

/-- Embeds `CalculateNefitEMSCRC`: the CRC is folded over all bytes except the
last (`SerialBuffer[:-1]`), starting from `crc = 0`. -/
def CalculateNefitEMSCRC (serialBuffer : List Nat) : Nat :=
  serialBuffer.dropLast.foldl crcStep 0

/-- Embeds `CRCOK`: compare the computed CRC against the final byte
(`SerialBuffer[len-1]`; the source indexes the last element, which exists at
every call site since only buffers of raw length at least 5 are destuffed and
checked, so `getLastD` with an arbitrary default is faithful there). -/
def CRCOK (serialBuffer : List Nat) : Bool :=
  CalculateNefitEMSCRC serialBuffer == serialBuffer.getLastD 0

/-! ## Frame synchronizer (`NextMessage`)

`NextMessage` reads one byte at a time and keeps `BreakBytes ∈ {0,1,2}`
(Normal / SawFF / SawFF00) plus the accumulating `Message` list.  On a
confirmed break (third byte `0x00`) the accumulated message is checked for
length `> 4`, destuffed, CRC-checked and either returned or dropped; in all
cases the accumulator restarts empty. -/

structure SyncState where
  breakBytes : Nat
  message : List Nat
deriving DecidableEq

def initState : SyncState := ⟨0, []⟩

/-- One byte of `NextMessage`'s scanning loop.  The second component is
`some rawFrame` exactly when a confirmed break fires (the raw frame is then
subjected to the length / destuff / CRC checks, modelled by `acceptFrame`). -/
def syncStep (s : SyncState) (c : Nat) : SyncState × Option (List Nat) :=
  if s.breakBytes = 0 then
    if c = 255 then (⟨1, s.message⟩, none)
    else (⟨0, s.message ++ [c]⟩, none)
  else if s.breakBytes = 1 then
    if c = 0 then (⟨2, s.message⟩, none)
    else (⟨0, s.message ++ [255, c]⟩, none)
  else
    if c = 0 then (⟨0, []⟩, some s.message)
    else (⟨0, s.message ++ [255, 0, c]⟩, none)

/-- Drive a step function over a whole byte stream, collecting every raw frame
emitted at a confirmed break. -/
def runWith (step : SyncState → Nat → SyncState × Option (List Nat)) :
    SyncState → List Nat → SyncState × List (List Nat)
  | s, [] => (s, [])
  | s, c :: rest =>
    match step s c with
    | (s1, none) => runWith step s1 rest
    | (s1, some frame) =>
      let r := runWith step s1 rest
      (r.1, frame :: r.2)

/-- The length / destuff / CRC gate that `NextMessage` applies to a raw frame
at a confirmed break: `if len(Message) > 4`, destuff, then `CRCOK`. -/
def acceptFrame (raw : List Nat) : Option (List Nat) :=
  if 4 < raw.length then
    let d := PostProcessMessage raw
    if CRCOK d then some d else none
  else none

/-- All frames an unbounded sequence of `NextMessage` calls would return on a
given byte stream. -/
def acceptedFrames (stream : List Nat) : List (List Nat) :=
  ((runWith syncStep initState stream).2).filterMap acceptFrame

/-! ## Claim-side synchronizer

Defined from the words of claim C1 ("the unexpected byte is processed as if
seen in the Normal state"), for comparison with `syncStep` above: after a lone
`0xFF`, or after `0xFF, 0x00`, the literal marker bytes are emitted and the
unexpected byte is then handled exactly as the Normal state would handle it
(in particular a `0xFF` there starts a new potential break instead of being
emitted). -/
def specSyncStep (s : SyncState) (c : Nat) : SyncState × Option (List Nat) :=
  if s.breakBytes = 0 then
    if c = 255 then (⟨1, s.message⟩, none)
    else (⟨0, s.message ++ [c]⟩, none)
  else if s.breakBytes = 1 then
    if c = 0 then (⟨2, s.message⟩, none)
    else if c = 255 then (⟨1, s.message ++ [255]⟩, none)
    else (⟨0, s.message ++ [255, c]⟩, none)
  else
    if c = 0 then (⟨0, []⟩, some s.message)
    else if c = 255 then (⟨1, s.message ++ [255, 0]⟩, none)
    else (⟨0, s.message ++ [255, 0, c]⟩, none)

/-! ## Numeric conversions (`ConvertToFloat`, `ConvertToint`) -/

/-- Embeds `ConvertToFloat`: big-endian accumulation for widths 1 and 2 times
a scalar, `0.0` for any other width. -/
def ConvertToFloat (msgData : List Nat) (scalar : ℚ) : ℚ :=
  match msgData with
  | [a] => (a : ℚ) * scalar
  | [a, b] => ((256 * a + b : ℕ) : ℚ) * scalar
  | _ => 0

/-- Embeds `ConvertToint`: big-endian accumulation for widths 1, 2 and 3,
`0` for any other width. -/
def ConvertToint (msgData : List Nat) : ℤ :=
  match msgData with
  | [a] => (a : ℤ)
  | [a, b] => 256 * (a : ℤ) + b
  | [a, b, c] => 65536 * (a : ℤ) + 256 * b + c
  | _ => 0

/-! ## Efficiency table and interpolation (`EfficiencyDictionary`,
`CalculateSystemEfficiency`)

The source dictionary maps integer return temperatures 10..100 to efficiency
percentages kept as decimal strings and converted with `float(...)` at use
sites; we embed the numeric values directly as rationals. -/

def EfficiencyEntries : List (ℤ × ℚ) :=
  [(10, 111), (11, 110.8), (12, 110.6), (13, 110.4), (14, 110.2),
   (15, 110), (16, 109.8), (17, 109.6), (18, 109.4), (19, 109.2),
   (20, 109), (21, 108.7), (22, 108.4), (23, 108.1), (24, 107.8),
   (25, 107.5), (26, 107.2), (27, 106.9), (28, 106.6), (29, 106.3),
   (30, 106), (31, 105.5), (32, 105), (33, 104.5), (34, 104),
   (35, 103.5), (36, 103), (37, 102.5), (38, 102), (39, 101.5),
   (40, 101), (41, 100.2), (42, 99.4), (43, 98.6), (44, 97.8),
   (45, 97), (46, 96.2), (47, 95.4), (48, 94.6), (49, 93.8),
   (50, 93), (51, 89.7), (52, 89.4), (53, 89.1), (54, 88.8),
   (55, 88.5), (56, 88.2), (57, 87.9), (58, 87.6), (59, 87.3),
   (60, 87), (61, 86.7), (62, 86.4), (63, 86.1), (64, 85.8),
   (65, 85.5), (66, 85.2), (67, 84.9), (68, 84.6), (69, 84.3),
   (70, 84), (71, 83.7), (72, 83.4), (73, 83.1), (74, 82.8),
   (75, 82.5), (76, 82.2), (77, 81.9), (78, 81.6), (79, 81.3),
   (80, 81), (81, 80.7), (82, 80.4), (83, 80.1), (84, 79.8),
   (85, 79.5), (86, 79.2), (87, 78.9), (88, 78.6), (89, 78.3),
   (90, 78), (91, 77.7), (92, 77.4), (93, 77.1), (94, 76.8),
   (95, 76.5), (96, 76.2), (97, 75.9), (98, 75.6), (99, 75.3),
   (100, 75)]

def lookupKey (n : ℤ) : List (ℤ × ℚ) → Option ℚ
  | [] => none
  | p :: rest => if p.1 = n then some p.2 else lookupKey n rest

/-- The source's `EfficiencyDictionary` as a partial map: a Python dictionary
access `EfficiencyDictionary[n]` succeeds exactly when the result is `some`,
and raises `KeyError` when it is `none`. -/
def EfficiencyDictionary (n : ℤ) : Option ℚ := lookupKey n EfficiencyEntries

/-- Python's `int()` on a float truncates toward zero. -/
def pyInt (t : ℚ) : ℤ := if 0 ≤ t then ⌊t⌋ else -⌊-t⌋

/-- Embeds `CalculateSystemEfficiency`: both table accesses must succeed,
then `Low + (T - int(T)) * (High - Low)`; a failing access is the source's
uncaught `KeyError`, modelled as `none`. -/
def CalculateSystemEfficiency (temperature : ℚ) : Option ℚ :=
  match EfficiencyDictionary (pyInt temperature),
        EfficiencyDictionary (pyInt temperature + 1) with
  | some low, some high =>
      some (low + (temperature - (pyInt temperature : ℚ)) * (high - low))
  | _, _ => none

/-! ## Status table and typed decoders -/

/-- Embeds the source's `StatusDictionary`. -/
def StatusDictionary (code : String) : Option String :=
  match code with
  | "-A" => some "Service Mode Enabled"
  | "-H" => some "Heating Mode Enabled"
  | "=H" => some "Domestic Hot Water Mode Enabled"
  | "0A" => some "Waiting..."
  | "0C" => some "Preparing to Ignite the burner"
  | "0E" => some "Waiting, anti-pendel"
  | "0H" => some "Standby, ready to heat"
  | "0L" => some "Adjusting Gas intake"
  | "0U" => some "Starting up the unit"
  | _ => none

/-- Values stored in a decoded record (Python floats as rationals, ints, and
short text codes). -/
inductive Val where
  | f : ℚ → Val
  | i : ℤ → Val
  | s : String → Val
deriving DecidableEq

/-- A decoded record: the Python result dictionary as a field/value list. -/
abbrev Rec := List (String × Val)

/-- Embeds `UBAMonitorFast` (type `'0x18'`, expected size 30).  `Msg[2]` on a
list shorter than 3 is a Python `IndexError`, modelled as `Except.error`; the
`EfficiencyDictionary` `KeyError` raised by `CalculateSystemEfficiency` on an
out-of-domain `FlowReturnTemperature` likewise propagates as `Except.error`.
The external Domoticz pushes are the sink boundary and carry no record
state, so they are not modelled. -/
def UBAMonitorFast (msg : List Nat) : Except Unit Rec :=
  match msg.get? 2 with
  | none => Except.error ()
  | some t =>
    if t = 24 ∧ msg.length = 30 then
      let flowTemperature := ConvertToFloat [msg.getD 5 0, msg.getD 6 0] 0.1
      let flowReturnTemperature := ConvertToFloat [msg.getD 17 0, msg.getD 18 0] 0.1
      let statusCode := String.mk [Char.ofNat (msg.getD 22 0), Char.ofNat (msg.getD 23 0)]
      let base : Rec :=
        [("RequestedFlowTemperature", Val.f (ConvertToFloat [msg.getD 4 0] 1)),
         ("FlowTemperature", Val.f flowTemperature),
         ("RequestedBurnerDutyCycle", Val.f (ConvertToFloat [msg.getD 7 0] 1)),
         ("BurnerDutyCycle", Val.f (ConvertToFloat [msg.getD 8 0] 1)),
         ("Boiler", Val.f (ConvertToFloat [msg.getD 15 0, msg.getD 16 0] 0.1)),
         ("FlowReturnTemperature", Val.f flowReturnTemperature),
         ("IonizationCurrent", Val.f (ConvertToFloat [msg.getD 19 0, msg.getD 20 0] 0.1)),
         ("Pressure", Val.f (ConvertToFloat [msg.getD 21 0] 0.1)),
         ("StatusCode", Val.s statusCode),
         ("ErrorCode", Val.i (ConvertToint [msg.getD 24 0, msg.getD 25 0])),
         ("DeltaT", Val.f (flowTemperature - flowReturnTemperature))]
      let withStatus : Rec :=
        match StatusDictionary statusCode with
        | some text =>
            base ++ [("StatusText", Val.s text),
                     ("SystemStatus",
                      Val.i (if statusCode = "-H" then 1
                             else if statusCode = "=H" then 2 else 0))]
        | none => base
      match CalculateSystemEfficiency flowReturnTemperature with
      | some efficiency => Except.ok (withStatus ++ [("Efficiency", Val.f efficiency)])
      | none => Except.error ()
    else Except.ok []

/-- Embeds `UBAMonitorSlow` (type `'0x19'`, expected size 32). -/
def UBAMonitorSlow (msg : List Nat) : Except Unit Rec :=
  match msg.get? 2 with
  | none => Except.error ()
  | some t =>
    if t = 25 ∧ msg.length = 32 then
      let burnerRuntime := ConvertToint [msg.getD 17 0, msg.getD 18 0, msg.getD 19 0]
      let heatingRuntime := ConvertToint [msg.getD 23 0, msg.getD 24 0, msg.getD 25 0]
      Except.ok
        [("BurnerOutWaterTemperature", Val.f (ConvertToFloat [msg.getD 6 0, msg.getD 7 0] 0.1)),
         ("PumpDutyCycle", Val.f (ConvertToFloat [msg.getD 13 0] 1)),
         ("BurnerStarts", Val.i (ConvertToint [msg.getD 14 0, msg.getD 15 0, msg.getD 16 0])),
         ("BurnerRuntimeInMinutes", Val.i burnerRuntime),
         ("HeatingRuntimeInMinutes", Val.i heatingRuntime),
         ("HotWaterRuntimeInMinutes", Val.i (burnerRuntime - heatingRuntime))]
    else Except.ok []

/-- Embeds `Moduline300Status` (type `'0x91'`, expected size 19). -/
def Moduline300Status (msg : List Nat) : Except Unit Rec :=
  match msg.get? 2 with
  | none => Except.error ()
  | some t =>
    if t = 145 ∧ msg.length = 19 then
      Except.ok
        [("Setpoint", Val.f (ConvertToFloat [msg.getD 5 0] 0.5)),
         ("Actual", Val.f (ConvertToFloat [msg.getD 15 0, msg.getD 16 0] 0.1))]
    else Except.ok []

/-- Embeds `UBAMonitorWWMessage` (type `'0x34'`, expected size 22). -/
def UBAMonitorWWMessage (msg : List Nat) : Except Unit Rec :=
  match msg.get? 2 with
  | none => Except.error ()
  | some t =>
    if t = 52 ∧ msg.length = 22 then
      Except.ok
        [("BoilerTemperature", Val.f (ConvertToFloat [msg.getD 7 0, msg.getD 8 0] 0.1)),
         ("WarmWaterOutTemperature", Val.f (ConvertToFloat [msg.getD 5 0, msg.getD 6 0] 0.1)),
         ("WarmWaterFlow", Val.f (ConvertToFloat [msg.getD 13 0] 0.1))]
    else Except.ok []

/-- Embeds the `MessageParseDispatcher` dictionary: keys `'0x18'`, `'0x19'`,
`'0x34'`, `'0x91'`. -/
def MessageParseDispatcher (t : Nat) : Option (List Nat → Except Unit Rec) :=
  if t = 24 then some UBAMonitorFast
  else if t = 25 then some UBAMonitorSlow
  else if t = 52 then some UBAMonitorWWMessage
  else if t = 145 then some Moduline300Status
  else none

/-- The frames `NextMessageOfInterest` passes onward: accepted frames whose
type byte (`Message[2]`) is a key of `MessageParseDispatcher`.  (The source
indexes `Message[2]` directly; accepted frames always have length at least 3,
so the `getD` default `256` — never a dictionary key — is faithful.) -/
def messagesOfInterest (stream : List Nat) : List (List Nat) :=
  (acceptedFrames stream).filter (fun m => (MessageParseDispatcher (m.getD 2 256)).isSome)

/-- One decode step of the main loop: `MessageParseDispatcher[Result[2]](Result)`,
returning `ok []` for a type without a registered decoder (such a frame is
skipped by `NextMessageOfInterest` and never reaches the main loop's call). -/
def decodeMsg (msg : List Nat) : Except Unit Rec :=
  match MessageParseDispatcher (msg.getD 2 256) with
  | some decoder => decoder msg
  | none => Except.ok []

/-! ## Claim-side definitions

These are written from the words of the claims (not from the source) and are
compared against the source embeddings above. -/

/-- Claim C3's wording of the CRC loop body before the xor with the byte:
if bit 7 of `crc` is set, xor with 12 and carry-in `d = 1`, else `d = 0`;
shift left by one, mask to 8 bits, clear bit 0, or in `d`. -/
def specCrcCore (crc : Nat) : Nat :=
  let d : Nat := if Nat.testBit crc 7 then 1 else 0
  let crc1 : Nat := if Nat.testBit crc 7 then Nat.xor crc 12 else crc
  2 * (crc1 * 2 % 256 / 2) ||| d

/-- Claim C3's wording of the full CRC loop body: finally xor with the byte. -/
def specCrcStep (crc b : Nat) : Nat := Nat.xor (specCrcCore crc) b

/-- Claim C2 (amended): a single left-to-right pass in which the occurrences
of `0xFF` are counted and the odd-numbered ones (first, third, ...) are
removed while the even-numbered ones are kept, regardless of adjacency;
`seen` is the number of `0xFF` occurrences already passed. -/
def keepToggle : Nat → List Nat → List Nat
  | _, [] => []
  | seen, b :: rest =>
    if b = 255 then
      if seen % 2 = 1 then b :: keepToggle (seen + 1) rest
      else keepToggle (seen + 1) rest
    else b :: keepToggle seen rest

/-- Claim C4's premise: on the wire, the serial driver's error marking doubles
every genuine `0xFF` payload byte to `0xFF, 0xFF`. -/
def stuff : List Nat → List Nat
  | [] => []
  | b :: rest => if b = 255 then 255 :: 255 :: stuff rest else b :: stuff rest

/-- Claim C8's big-endian accumulation `Σ byte[i] * 256 ^ (n - 1 - i)`. -/
def specBE (l : List Nat) : ℕ :=
  ((List.range l.length).map (fun i => l.getD i 0 * 256 ^ (l.length - 1 - i))).sum

/-- A CRC-valid `UBAMonitorFast` frame (type byte `0x18`, 30 bytes, CRC 70)
whose `FlowReturnTemperature` bytes decode to `0.0` degrees. -/
def coldReturnFrame : List Nat := [8, 0, 24, 0] ++ List.replicate 25 0 ++ [70]

/-! # Helper lemmas -/

theorem crcCore_eq_specCrcCore : ∀ crc < 256, crcCore crc = specCrcCore crc := by decide

theorem crcCore_lt (crc : Nat) : crcCore crc < 256 := by
  have h1 : ((if crc &&& 0x80 ≠ 0 then crc ^^^ 12 else crc) <<< 1) &&& 0xfe ≤ 0xfe :=
    Nat.and_le_right
  have h2 : (if crc &&& 0x80 ≠ 0 then (1 : Nat) else 0) ≤ 1 := by split <;> omega
  have : crcCore crc < 2 ^ 8 :=
    Nat.or_lt_two_pow (by omega) (by omega)
  omega

theorem crcStep_lt (crc b : Nat) (hb : b < 256) : crcStep crc b < 256 := by
  have : crcCore crc ^^^ b < 2 ^ 8 :=
    Nat.xor_lt_two_pow (by have := crcCore_lt crc; omega) (by omega)
  simpa [crcStep] using this

theorem foldl_crc_eq :
    ∀ (l : List Nat) (crc : Nat), crc < 256 → (∀ b ∈ l, b < 256) →
      l.foldl crcStep crc = l.foldl specCrcStep crc := by
  intro l
  induction l with
  | nil => intro crc _ _; rfl
  | cons b rest ih =>
    intro crc hc hb
    have hb0 : b < 256 := hb b (List.mem_cons_self b rest)
    have hstep : crcStep crc b = specCrcStep crc b := by
      simp only [crcStep, specCrcStep, crcCore_eq_specCrcCore crc hc]
      rfl
    simp only [List.foldl_cons, hstep]
    rw [← hstep]
    exact (ih (crcStep crc b) (crcStep_lt crc b hb0)
      (fun x hx => hb x (List.mem_cons_of_mem b hx))).trans (by rw [hstep])

theorem acceptFrame_eq_some {raw frame : List Nat} (h : acceptFrame raw = some frame) :
    frame = PostProcessMessage raw ∧ CRCOK frame = true ∧ 4 < raw.length := by
  unfold acceptFrame at h
  by_cases h4 : 4 < raw.length
  · rw [if_pos h4] at h
    by_cases hc : CRCOK (PostProcessMessage raw)
    · simp only [hc, if_true, Option.some.injEq] at h
      exact ⟨h.symm, h ▸ hc, h4⟩
    · simp [hc] at h
  · simp [h4] at h

/-! # Claim theorems -/

/-- C3: the CRC validator folds, over all bytes of the destuffed frame except
the last, the bit-serial step described by the claim (if bit 7 is set, xor
with 12 and carry 1; shift left, mask to 8 bits, clear bit 0, or in the
carry; xor the byte), and accepts the frame exactly when the result equals
the final byte; every frame the pipeline passes onward satisfies
`crc = CRC(frame[0..len-1])`. -/
theorem crc_bitserial_accepts_iff :
    (∀ frame : List Nat, 2 ≤ frame.length → (∀ b ∈ frame, b < 256) →
      (CRCOK frame = true ↔
        frame.dropLast.foldl specCrcStep 0 = frame.getLastD 0)) ∧
    (∀ raw frame, acceptFrame raw = some frame →
      CalculateNefitEMSCRC frame = frame.getLastD 0) := by
  constructor
  · intro frame _ hb
    have hfold : frame.dropLast.foldl crcStep 0 = frame.dropLast.foldl specCrcStep 0 :=
      foldl_crc_eq frame.dropLast 0 (by omega)
        (fun x hx => hb x (frame.dropLast_sublist.subset hx))
    unfold CRCOK CalculateNefitEMSCRC
    rw [beq_iff_eq, hfold]
  · intro raw frame h
    have := (acceptFrame_eq_some h).2.1
    unfold CRCOK at this
    exact beq_iff_eq.mp this

/-- Witness for C3 at the concrete two-byte frame `[8, 8]` (the CRC of `[8]`
is `8`). -/
theorem crc_bitserial_accepts_iff_witness : CRCOK [8, 8] = true :=
  (crc_bitserial_accepts_iff.1 [8, 8] (by decide) (by decide)).mpr (by decide)

theorem destuffGo_eq_keepToggle :
    ∀ (m : List Nat) (seen : Nat),
      destuffGo (decide (seen % 2 = 1)) m = keepToggle seen m := by
  intro m
  induction m with
  | nil => intro _; rfl
  | cons b rest ih =>
    intro seen
    by_cases hb : b = 255
    · subst hb
      by_cases hs : seen % 2 = 1
      · have hnext : ¬((seen + 1) % 2 = 1) := by omega
        have hrec := ih (seen + 1)
        rw [decide_eq_false hnext] at hrec
        simp [destuffGo, keepToggle, hs, decide_eq_true hs, hrec]
      · have hnext : (seen + 1) % 2 = 1 := by omega
        have hrec := ih (seen + 1)
        rw [decide_eq_true hnext] at hrec
        simp [destuffGo, keepToggle, hs, decide_eq_false hs, hrec]
    · simp [destuffGo, keepToggle, hb, ih seen]

theorem keepToggle_of_not_mem :
    ∀ (m : List Nat) (seen : Nat), 255 ∉ m → keepToggle seen m = m := by
  intro m
  induction m with
  | nil => intro _ _; rfl
  | cons b rest ih =>
    intro seen h
    have hb : b ≠ 255 := fun hb => h (hb ▸ List.mem_cons_self b rest)
    have hrest : 255 ∉ rest := fun hm => h (List.mem_cons_of_mem b hm)
    simp [keepToggle, hb, ih seen hrest]

/-- C2 counterexample: in `[1, 0xFF, 2]` the `0xFF` is lone (it has no
adjacent `0xFF` duplicate), yet the de-stuffer removes it instead of passing
it through unchanged, refuting the claim at this input. -/
theorem destuff_lone_ff_counterexample :
    PostProcessMessage [1, 255, 2] = [1, 2] ∧
    PostProcessMessage [1, 255, 2] ≠ [1, 255, 2] := by
  constructor <;> decide

/-- C2 (amended): the de-stuffer's single left-to-right pass keeps a running
toggle over *all* `0xFF` occurrences in the frame, never resetting it at
other bytes: the first, third, fifth, ... occurrences of `0xFF` are removed
and the second, fourth, ... are kept, regardless of adjacency (so each
adjacent doubled pair entered with an even occurrence count collapses to one,
but a lone `0xFF` after an even occurrence count is removed); bytes other
than `0xFF` are unaffected. -/
theorem destuff_parity_toggle :
    ∀ m : List Nat, PostProcessMessage m = keepToggle 0 m := by
  intro m
  by_cases h : 255 ∈ m
  · have := destuffGo_eq_keepToggle m 0
    rw [show decide (0 % 2 = 1) = false from rfl] at this
    simpa [PostProcessMessage, h] using this
  · simp [PostProcessMessage, h, keepToggle_of_not_mem m 0 h]

theorem destuffGo_sublist : ∀ (m : List Nat) (br : Bool), (destuffGo br m).Sublist m := by
  intro m
  induction m with
  | nil => intro _; exact List.Sublist.refl []
  | cons b rest ih =>
    intro br
    by_cases hb : b = 255
    · subst hb
      cases br with
      | true => simpa [destuffGo] using (ih false).cons₂ 255
      | false => simpa [destuffGo] using (ih true).cons 255
    · simpa [destuffGo, hb] using (ih br).cons₂ b

theorem destuffGo_filter :
    ∀ (m : List Nat) (br : Bool),
      (destuffGo br m).filter (fun b => b != 255) = m.filter (fun b => b != 255) := by
  intro m
  induction m with
  | nil => intro _; rfl
  | cons b rest ih =>
    intro br
    by_cases hb : b = 255
    · subst hb
      cases br with
      | true => simp [destuffGo, List.filter, ih false]
      | false => simp [destuffGo, List.filter, ih true]
    · have hb' : (b != 255) = true := by simpa using hb
      simp [destuffGo, hb, ih br, List.filter_cons, hb']

/-- C10: the de-stuffer removes only `0xFF` bytes: its output is a
subsequence of its input, every byte other than `0xFF` is preserved with its
relative order and multiplicity (the two sides agree after filtering out
`0xFF`), and the output is never longer than the input. -/
theorem destuff_removes_only_ff :
    ∀ m : List Nat,
      (PostProcessMessage m).Sublist m ∧
      (PostProcessMessage m).filter (fun b => b != 255) = m.filter (fun b => b != 255) ∧
      (PostProcessMessage m).length ≤ m.length := by
  intro m
  by_cases h : 255 ∈ m
  · simp only [PostProcessMessage, if_pos h]
    exact ⟨destuffGo_sublist m false, destuffGo_filter m false,
      (destuffGo_sublist m false).length_le⟩
  · rw [PostProcessMessage, if_neg h]
    exact ⟨List.Sublist.refl m, rfl, le_refl _⟩

/-- C1 counterexample: on the byte stream `FF FF 00 00`, the machine of the
claim (which re-processes the unexpected byte in the Normal state, so the
second `FF` starts a new potential break) confirms a break and terminates a
frame, while the implemented synchronizer emits both `FF` bytes literally and
sees no break at all. -/
theorem sync_reprocess_counterexample :
    (runWith syncStep initState [255, 255, 0, 0]).2 = [] ∧
    (runWith specSyncStep initState [255, 255, 0, 0]).2 = [[255]] ∧
    runWith syncStep initState [255, 255, 0, 0] ≠
      runWith specSyncStep initState [255, 255, 0, 0] := by
  refine ⟨rfl, rfl, by decide⟩

/-- C1 (amended): after a lone `0xFF`, a byte `c ≠ 0x00` makes the
synchronizer emit the literal `0xFF` followed by `c` itself and resume Normal
scanning from the *next* byte (`c` is consumed, not re-processed: a `0xFF`
there does not begin a new potential break); after `0xFF, 0x00`, a byte
`c ≠ 0x00` makes it emit `0xFF, 0x00, c` literally and resume Normal from the
next byte; exactly `0xFF, 0x00, 0x00` terminates the current candidate frame
without including any marker byte and begins accumulating a new empty
frame. -/
theorem sync_literal_emission :
    ∀ (m : List Nat) (c : Nat) (rest : List Nat),
      (c ≠ 0 → runWith syncStep ⟨1, m⟩ (c :: rest) =
        runWith syncStep ⟨0, m ++ [255, c]⟩ rest) ∧
      (c ≠ 0 → runWith syncStep ⟨2, m⟩ (c :: rest) =
        runWith syncStep ⟨0, m ++ [255, 0, c]⟩ rest) ∧
      runWith syncStep ⟨2, m⟩ (0 :: rest) =
        ((runWith syncStep ⟨0, []⟩ rest).1,
          m :: (runWith syncStep ⟨0, []⟩ rest).2) := by
  intro m c rest
  refine ⟨fun hc => ?_, fun hc => ?_, ?_⟩
  · simp [runWith, syncStep, hc]
  · simp [runWith, syncStep, hc]
  · simp [runWith, syncStep]

/-- Witness for C1's amended theorem at concrete states and bytes. -/
theorem sync_literal_emission_witness :
    runWith syncStep ⟨1, []⟩ [7] = runWith syncStep ⟨0, [255, 7]⟩ [] ∧
    runWith syncStep ⟨2, []⟩ [7] = runWith syncStep ⟨0, [255, 0, 7]⟩ [] ∧
    runWith syncStep ⟨2, [1, 2]⟩ [0] =
      ((runWith syncStep ⟨0, []⟩ []).1, [1, 2] :: (runWith syncStep ⟨0, []⟩ []).2) :=
  ⟨(sync_literal_emission [] 7 []).1 (by decide),
   (sync_literal_emission [] 7 []).2.1 (by decide),
   (sync_literal_emission [1, 2] 0 []).2.2⟩

theorem runWith_sync_stuff :
    ∀ (p m rest : List Nat),
      runWith syncStep ⟨0, m⟩ (stuff p ++ rest) =
        runWith syncStep ⟨0, m ++ stuff p⟩ rest := by
  intro p
  induction p with
  | nil => intro m rest; simp [stuff]
  | cons b p ih =>
    intro m rest
    by_cases hb : b = 255
    · subst hb
      simp only [stuff, if_pos rfl, List.cons_append]
      simp [runWith, syncStep]
      rw [ih (m ++ [255, 255]) rest]
      simp
    · simp only [stuff, if_neg hb, List.cons_append]
      simp [runWith, syncStep, hb]
      rw [ih (m ++ [b]) rest]
      simp

theorem runWith_sync_break (m : List Nat) :
    runWith syncStep ⟨0, m⟩ [255, 0, 0] = (⟨0, []⟩, [m]) := by
  simp [runWith, syncStep]

theorem destuffGo_stuff : ∀ p : List Nat, destuffGo false (stuff p) = p := by
  intro p
  induction p with
  | nil => rfl
  | cons b p ih =>
    by_cases hb : b = 255
    · subst hb; simp [stuff, destuffGo, ih]
    · simp [stuff, destuffGo, hb, ih]

theorem stuff_eq_self_of_not_mem : ∀ p : List Nat, 255 ∉ p → stuff p = p := by
  intro p
  induction p with
  | nil => intro _; rfl
  | cons b rest ih =>
    intro h
    have hb : b ≠ 255 := fun hb => h (hb ▸ List.mem_cons_self b rest)
    have hrest : 255 ∉ rest := fun hm => h (List.mem_cons_of_mem b hm)
    simp [stuff, hb, ih hrest]

theorem mem_stuff_of_mem : ∀ p : List Nat, 255 ∈ p → 255 ∈ stuff p := by
  intro p
  induction p with
  | nil => intro h; cases h
  | cons b rest ih =>
    intro h
    by_cases hb : b = 255
    · subst hb; simp [stuff]
    · rcases List.mem_cons.mp h with h1 | h1
      · exact absurd h1.symm hb
      · simp [stuff, hb, ih h1]

theorem PostProcess_stuff : ∀ p : List Nat, PostProcessMessage (stuff p) = p := by
  intro p
  by_cases h : 255 ∈ stuff p
  · rw [PostProcessMessage, if_pos h, destuffGo_stuff]
  · have hp : 255 ∉ p := fun hm => h (mem_stuff_of_mem p hm)
    rw [PostProcessMessage, if_neg h, stuff_eq_self_of_not_mem p hp]

/-- C4: for every logical payload in which a genuine `0xFF` occurs and is
doubled on the wire by the break-detection mechanism (`stuff`), the frame
synchronizer delivers the whole stuffed payload as the candidate frame at the
next break, and de-stuffing restores the payload exactly — in particular each
genuine `0xFF` appears exactly once afterwards; moreover every frame the
pipeline passes onward is the destuffed candidate, i.e. de-stuffing happens
before CRC validation. -/
theorem escaped_ff_roundtrip :
    (∀ p : List Nat, 255 ∈ p → 4 < (stuff p).length →
      (runWith syncStep initState (stuff p ++ [255, 0, 0])).2 = [stuff p] ∧
      PostProcessMessage (stuff p) = p ∧
      (PostProcessMessage (stuff p)).count 255 = p.count 255) ∧
    (∀ raw frame, acceptFrame raw = some frame →
      frame = PostProcessMessage raw) := by
  constructor
  · intro p _ _
    refine ⟨?_, PostProcess_stuff p, by rw [PostProcess_stuff]⟩
    show (runWith syncStep ⟨0, []⟩ (stuff p ++ [255, 0, 0])).2 = [stuff p]
    rw [runWith_sync_stuff p [] [255, 0, 0], List.nil_append, runWith_sync_break]
  · intro raw frame h
    exact (acceptFrame_eq_some h).1

/-- Witness for C4 at the payload `[1, 255, 2, 3]` (stuffed length 5). -/
theorem escaped_ff_roundtrip_witness :
    (runWith syncStep initState (stuff [1, 255, 2, 3] ++ [255, 0, 0])).2 =
      [stuff [1, 255, 2, 3]] ∧
    PostProcessMessage (stuff [1, 255, 2, 3]) = [1, 255, 2, 3] := by
  have h := escaped_ff_roundtrip.1 [1, 255, 2, 3] (by decide) (by decide)
  exact ⟨h.1, h.2.1⟩

/-- C5 counterexample: on the stream `FF FF FF FF 18 | FF 00 00` the raw
accumulated frame is `[FF, FF, FF, FF, 18]` (length 5, so it survives the
pre-destuffing length gate), destuffs to the 3-byte candidate
`[FF, FF, 18]`, passes CRC, and is passed onward — it even carries the
registered type byte `0x18` and so reaches decoding — refuting the claim that
candidate frames shorter than 5 bytes are always discarded. -/
theorem short_destuffed_frame_passed_onward :
    acceptedFrames [255, 255, 255, 255, 24, 255, 0, 0] = [[255, 255, 24]] ∧
    messagesOfInterest [255, 255, 255, 255, 24, 255, 0, 0] = [[255, 255, 24]] ∧
    ([255, 255, 24] : List Nat).length < 5 := by
  refine ⟨rfl, rfl, by decide⟩

/-- C5 (amended): the 5-byte minimum-length gate is applied to the *raw*
accumulated sequence before de-stuffing: a raw sequence of fewer than 5 bytes
is silently discarded at the break and never destuffed, CRC-validated or
decoded (so two consecutive breaks with nothing between them yield zero
candidate frames), and every frame passed onward comes from a raw sequence of
at least 5 bytes — but its destuffed length may be smaller than 5. -/
theorem raw_length_gate :
    (∀ raw : List Nat, raw.length < 5 → acceptFrame raw = none) ∧
    (∀ raw frame, acceptFrame raw = some frame → 4 < raw.length) ∧
    acceptedFrames [255, 0, 0, 255, 0, 0] = [] := by
  refine ⟨?_, ?_, rfl⟩
  · intro raw h
    rw [acceptFrame, if_neg (by omega)]
  · intro raw frame h
    exact (acceptFrame_eq_some h).2.2

/-- Witness for C5's amended theorem: a 3-byte raw fragment is discarded. -/
theorem raw_length_gate_witness : acceptFrame [1, 2, 3] = none :=
  raw_length_gate.1 [1, 2, 3] (by decide)

theorem lookupKey_eq_none :
    ∀ (n : ℤ) (l : List (ℤ × ℚ)), (∀ p ∈ l, p.1 ≠ n) → lookupKey n l = none := by
  intro n l
  induction l with
  | nil => intro _; rfl
  | cons p rest ih =>
    intro h
    rw [lookupKey, if_neg (h p (List.mem_cons_self p rest))]
    exact ih fun q hq => h q (List.mem_cons_of_mem p hq)

theorem effEntries_keys : ∀ p ∈ EfficiencyEntries, 10 ≤ p.1 ∧ p.1 ≤ 100 := by decide

theorem EfficiencyDictionary_eq_none_of_lt (n : ℤ) (h : n < 10) :
    EfficiencyDictionary n = none :=
  lookupKey_eq_none n _ fun p hp => by have := effEntries_keys p hp; omega

theorem EfficiencyDictionary_eq_none_of_gt (n : ℤ) (h : 100 < n) :
    EfficiencyDictionary n = none :=
  lookupKey_eq_none n _ fun p hp => by have := effEntries_keys p hp; omega

theorem EfficiencyDictionary_isSome_nat :
    ∀ k : ℕ, k < 91 → (EfficiencyDictionary (10 + (k : ℤ))).isSome = true := by decide

theorem EfficiencyDictionary_isSome (n : ℤ) (h1 : 10 ≤ n) (h2 : n ≤ 100) :
    (EfficiencyDictionary n).isSome = true := by
  have hk : n = 10 + ((n - 10).toNat : ℤ) := by omega
  have hlt : (n - 10).toNat < 91 := by omega
  rw [hk]
  exact EfficiencyDictionary_isSome_nat _ hlt

theorem pyInt_eq_floor (t : ℚ) (h : 0 ≤ t) : pyInt t = ⌊t⌋ := if_pos h

theorem pyInt_lt_ten (t : ℚ) (h : t < 10) : pyInt t < 10 := by
  rw [pyInt]
  split
  · exact Int.floor_lt.mpr (by push_cast; linarith)
  · rename_i hneg
    have h0 : (0 : ℚ) ≤ -t := by linarith [not_le.mp hneg]
    have := Int.floor_nonneg.mpr h0
    omega

theorem CalculateSystemEfficiency_eq_some (t : ℚ) (h1 : 10 ≤ t) (h2 : t < 100) :
    ∃ low high, EfficiencyDictionary ⌊t⌋ = some low ∧
      EfficiencyDictionary (⌊t⌋ + 1) = some high ∧
      CalculateSystemEfficiency t = some (low + (t - (⌊t⌋ : ℚ)) * (high - low)) := by
  have h0 : (0 : ℚ) ≤ t := by linarith
  have hp : pyInt t = ⌊t⌋ := pyInt_eq_floor t h0
  have hf1 : (10 : ℤ) ≤ ⌊t⌋ := Int.le_floor.mpr (by push_cast; linarith)
  have hf2 : ⌊t⌋ < 100 := Int.floor_lt.mpr (by push_cast; linarith)
  obtain ⟨low, hlow⟩ :=
    Option.isSome_iff_exists.mp (EfficiencyDictionary_isSome ⌊t⌋ hf1 (by omega))
  obtain ⟨high, hhigh⟩ :=
    Option.isSome_iff_exists.mp (EfficiencyDictionary_isSome (⌊t⌋ + 1) (by omega) (by omega))
  refine ⟨low, high, hlow, hhigh, ?_⟩
  rw [CalculateSystemEfficiency, hp, hlow, hhigh]

theorem CalculateSystemEfficiency_eq_none (t : ℚ) (h : t < 10 ∨ 100 ≤ t) :
    CalculateSystemEfficiency t = none := by
  rcases h with h | h
  · have hn : EfficiencyDictionary (pyInt t) = none :=
      EfficiencyDictionary_eq_none_of_lt _ (pyInt_lt_ten t h)
    rw [CalculateSystemEfficiency, hn]
  · have h0 : (0 : ℚ) ≤ t := by linarith
    have hf : (100 : ℤ) ≤ ⌊t⌋ := Int.le_floor.mpr (by push_cast; linarith)
    have hn : EfficiencyDictionary (pyInt t + 1) = none := by
      rw [pyInt_eq_floor t h0]
      exact EfficiencyDictionary_eq_none_of_gt _ (by omega)
    rw [CalculateSystemEfficiency, hn]
    rcases EfficiencyDictionary (pyInt t) with _ | low <;> rfl

theorem CalculateSystemEfficiency_none_iff (t : ℚ) :
    CalculateSystemEfficiency t = none ↔ (t < 10 ∨ 100 ≤ t) := by
  constructor
  · intro h
    by_contra hc
    push_neg at hc
    obtain ⟨low, high, _, _, hsome⟩ :=
      CalculateSystemEfficiency_eq_some t (by linarith [hc.1]) (by linarith [hc.2])
    rw [hsome] at h
    cases h
  · exact CalculateSystemEfficiency_eq_none t

/-- C6: for `10 ≤ t < 100` the computation looks up the table at `⌊t⌋` and
`⌊t⌋ + 1` and returns the linear interpolation
`low + (t - ⌊t⌋) * (high - low)` (e.g. `45.5 ↦ 96.6` from the table values
`97` and `96.2`); for `t < 10` or `t ≥ 100` (e.g. `5.0`, `150.0`) the table
access fails and the failure is surfaced to the caller — never a clamped or
default value. -/
theorem efficiency_interpolation_domain :
    (∀ t : ℚ, 10 ≤ t → t < 100 →
      ∃ low high, EfficiencyDictionary ⌊t⌋ = some low ∧
        EfficiencyDictionary (⌊t⌋ + 1) = some high ∧
        CalculateSystemEfficiency t = some (low + (t - (⌊t⌋ : ℚ)) * (high - low))) ∧
    (∀ t : ℚ, t < 10 ∨ 100 ≤ t → CalculateSystemEfficiency t = none) ∧
    CalculateSystemEfficiency 45.5 = some 96.6 ∧
    CalculateSystemEfficiency 5 = none ∧
    CalculateSystemEfficiency 150 = none := by
  refine ⟨CalculateSystemEfficiency_eq_some, CalculateSystemEfficiency_eq_none, ?_,
    CalculateSystemEfficiency_eq_none 5 (Or.inl (by norm_num)),
    CalculateSystemEfficiency_eq_none 150 (Or.inr (by norm_num))⟩
  obtain ⟨low, high, hlow, hhigh, hsome⟩ :=
    CalculateSystemEfficiency_eq_some 45.5 (by norm_num) (by norm_num)
  have hf : ⌊(45.5 : ℚ)⌋ = 45 := by norm_num
  rw [hf] at hlow hhigh hsome
  have h45 : EfficiencyDictionary 45 = some 97 := by with_unfolding_all rfl
  have h46 : EfficiencyDictionary (45 + 1) = some 96.2 := by with_unfolding_all rfl
  rw [h45] at hlow
  rw [h46] at hhigh
  obtain rfl := Option.some.inj hlow
  obtain rfl := Option.some.inj hhigh
  rw [hsome]
  congr 1
  push_cast
  norm_num

/-- Witness for C6 at `t = 45.5` (in-domain) and `t = 150` (out of
domain). -/
theorem efficiency_interpolation_domain_witness :
    (∃ low high, EfficiencyDictionary ⌊(45.5 : ℚ)⌋ = some low ∧
      EfficiencyDictionary (⌊(45.5 : ℚ)⌋ + 1) = some high ∧
      CalculateSystemEfficiency 45.5 =
        some (low + ((45.5 : ℚ) - (⌊(45.5 : ℚ)⌋ : ℚ)) * (high - low))) ∧
    CalculateSystemEfficiency 150 = none :=
  ⟨efficiency_interpolation_domain.1 45.5 (by norm_num) (by norm_num),
   efficiency_interpolation_domain.2.1 150 (Or.inr (by norm_num))⟩

theorem get?_two_of_length (msg : List Nat) (h : 2 < msg.length) :
    msg.get? 2 = some (msg.getD 2 256) := by
  cases hm : msg.get? 2 with
  | none => exact absurd (List.get?_eq_none.mp hm) (by omega)
  | some v =>
    have hv : msg.getD 2 256 = v := by
      show (msg.get? 2).getD 256 = v
      rw [hm]
      rfl
    rw [hv]

theorem UBAMonitorSlow_ne_error (msg : List Nat) (h : 2 < msg.length) (e : Unit) :
    UBAMonitorSlow msg ≠ Except.error e := by
  simp only [UBAMonitorSlow, get?_two_of_length msg h]
  split <;> simp

theorem UBAMonitorWWMessage_ne_error (msg : List Nat) (h : 2 < msg.length) (e : Unit) :
    UBAMonitorWWMessage msg ≠ Except.error e := by
  simp only [UBAMonitorWWMessage, get?_two_of_length msg h]
  split <;> simp

theorem Moduline300Status_ne_error (msg : List Nat) (h : 2 < msg.length) (e : Unit) :
    Moduline300Status msg ≠ Except.error e := by
  simp only [Moduline300Status, get?_two_of_length msg h]
  split <;> simp

theorem UBAMonitorFast_error_elim (msg : List Nat) (h : 2 < msg.length) (e : Unit)
    (herr : UBAMonitorFast msg = Except.error e) :
    msg.getD 2 256 = 24 ∧ msg.length = 30 ∧
      CalculateSystemEfficiency (ConvertToFloat [msg.getD 17 0, msg.getD 18 0] 0.1) = none := by
  simp only [UBAMonitorFast, get?_two_of_length msg h] at herr
  by_cases hguard : msg.getD 2 256 = 24 ∧ msg.length = 30
  · refine ⟨hguard.1, hguard.2, ?_⟩
    rw [if_pos hguard] at herr
    rcases heff : CalculateSystemEfficiency
        (ConvertToFloat [msg.getD 17 0, msg.getD 18 0] 0.1) with _ | eff
    · rfl
    · rw [heff] at herr
      simp at herr
  · rw [if_neg hguard] at herr
    simp at herr

/-- C7 counterexample: `coldReturnFrame` is a CRC-valid 30-byte frame of the
registered type `0x18` whose `FlowReturnTemperature` decodes to `0.0` °C;
the full pipeline accepts it and passes it to decoding, where the efficiency
table lookup fails — an unhandled error that terminates the process, refuting
the claim that no frame content is fatal. -/
theorem cold_return_frame_kills_pipeline :
    messagesOfInterest (coldReturnFrame ++ [255, 0, 0]) = [coldReturnFrame] ∧
    decodeMsg coldReturnFrame = Except.error () := by
  constructor
  · rfl
  · with_unfolding_all rfl

/-- C7 (amended): for every frame of length at least 3 (as all
pipeline-delivered frames are), one decode step fails with an unhandled error
*only* when the frame is a type-`0x18`, 30-byte `UBAMonitorFast` frame whose
decoded `FlowReturnTemperature` lies outside the efficiency table's domain
(below 10 or at least 100 °C); every other frame content decodes without any
error escaping.  In that one case the error is fatal to the process. -/
theorem decode_error_only_from_efficiency_domain :
    ∀ msg : List Nat, 2 < msg.length → ∀ e : Unit,
      decodeMsg msg = Except.error e →
        msg.getD 2 256 = 24 ∧ msg.length = 30 ∧
        (ConvertToFloat [msg.getD 17 0, msg.getD 18 0] 0.1 < 10 ∨
          100 ≤ ConvertToFloat [msg.getD 17 0, msg.getD 18 0] 0.1) := by
  intro msg h e herr
  rw [decodeMsg] at herr
  by_cases h24 : msg.getD 2 256 = 24
  · rw [MessageParseDispatcher, if_pos h24] at herr
    obtain ⟨h1, h2, h3⟩ := UBAMonitorFast_error_elim msg h e herr
    exact ⟨h1, h2, (CalculateSystemEfficiency_none_iff _).mp h3⟩
  · exfalso
    by_cases h25 : msg.getD 2 256 = 25
    · rw [MessageParseDispatcher, if_neg h24, if_pos h25] at herr
      exact UBAMonitorSlow_ne_error msg h e herr
    · by_cases h52 : msg.getD 2 256 = 52
      · rw [MessageParseDispatcher, if_neg h24, if_neg h25, if_pos h52] at herr
        exact UBAMonitorWWMessage_ne_error msg h e herr
      · by_cases h145 : msg.getD 2 256 = 145
        · rw [MessageParseDispatcher, if_neg h24, if_neg h25, if_neg h52,
            if_pos h145] at herr
          exact Moduline300Status_ne_error msg h e herr
        · rw [MessageParseDispatcher, if_neg h24, if_neg h25, if_neg h52,
            if_neg h145] at herr
          simp at herr

/-- Witness for C7's amended theorem at the concrete frame
`coldReturnFrame`. -/
theorem decode_error_only_from_efficiency_domain_witness :
    coldReturnFrame.getD 2 256 = 24 ∧ coldReturnFrame.length = 30 ∧
    (ConvertToFloat [coldReturnFrame.getD 17 0, coldReturnFrame.getD 18 0] 0.1 < 10 ∨
      100 ≤ ConvertToFloat [coldReturnFrame.getD 17 0, coldReturnFrame.getD 18 0] 0.1) :=
  decode_error_only_from_efficiency_domain coldReturnFrame (by decide) ()
    (by with_unfolding_all rfl)

theorem UBAMonitorFast_guard_reject (msg : List Nat) (h : 2 < msg.length)
    (hne : msg.getD 2 256 ≠ 24 ∨ msg.length ≠ 30) :
    UBAMonitorFast msg = Except.ok [] := by
  simp only [UBAMonitorFast, get?_two_of_length msg h]
  rw [if_neg (by tauto)]

theorem UBAMonitorSlow_guard_reject (msg : List Nat) (h : 2 < msg.length)
    (hne : msg.getD 2 256 ≠ 25 ∨ msg.length ≠ 32) :
    UBAMonitorSlow msg = Except.ok [] := by
  simp only [UBAMonitorSlow, get?_two_of_length msg h]
  rw [if_neg (by tauto)]

theorem UBAMonitorWWMessage_guard_reject (msg : List Nat) (h : 2 < msg.length)
    (hne : msg.getD 2 256 ≠ 52 ∨ msg.length ≠ 22) :
    UBAMonitorWWMessage msg = Except.ok [] := by
  simp only [UBAMonitorWWMessage, get?_two_of_length msg h]
  rw [if_neg (by tauto)]

theorem Moduline300Status_guard_reject (msg : List Nat) (h : 2 < msg.length)
    (hne : msg.getD 2 256 ≠ 145 ∨ msg.length ≠ 19) :
    Moduline300Status msg = Except.ok [] := by
  simp only [Moduline300Status, get?_two_of_length msg h]
  rw [if_neg (by tauto)]

/-- C9: a validated frame whose type byte has no registered decoder is never
among the messages passed onward to decoding (it is filtered out with no
record produced), and each typed decoder, on a frame whose type byte or exact
byte length differs from its expectation, returns the empty record with no
error escaping. -/
theorem registry_and_guard_rejection :
    (∀ stream msg, msg ∈ messagesOfInterest stream →
      (MessageParseDispatcher (msg.getD 2 256)).isSome = true) ∧
    (∀ stream msg, MessageParseDispatcher (msg.getD 2 256) = none →
      msg ∉ messagesOfInterest stream) ∧
    (∀ msg : List Nat, 2 < msg.length → msg.getD 2 256 ≠ 24 ∨ msg.length ≠ 30 →
      UBAMonitorFast msg = Except.ok []) ∧
    (∀ msg : List Nat, 2 < msg.length → msg.getD 2 256 ≠ 25 ∨ msg.length ≠ 32 →
      UBAMonitorSlow msg = Except.ok []) ∧
    (∀ msg : List Nat, 2 < msg.length → msg.getD 2 256 ≠ 52 ∨ msg.length ≠ 22 →
      UBAMonitorWWMessage msg = Except.ok []) ∧
    (∀ msg : List Nat, 2 < msg.length → msg.getD 2 256 ≠ 145 ∨ msg.length ≠ 19 →
      Moduline300Status msg = Except.ok []) := by
  refine ⟨?_, ?_, UBAMonitorFast_guard_reject, UBAMonitorSlow_guard_reject,
    UBAMonitorWWMessage_guard_reject, Moduline300Status_guard_reject⟩
  · intro stream msg hmem
    rw [messagesOfInterest] at hmem
    exact (List.mem_filter.mp hmem).2
  · intro stream msg hnone hmem
    rw [messagesOfInterest] at hmem
    have h2 : (MessageParseDispatcher (msg.getD 2 256)).isSome = true :=
      (List.mem_filter.mp hmem).2
    rw [hnone] at h2
    cases h2

/-- Witness for C9: two decoders reject concrete mismatching frames. -/
theorem registry_and_guard_rejection_witness :
    UBAMonitorFast [1, 2, 3] = Except.ok [] ∧
    Moduline300Status [1, 2, 3] = Except.ok [] :=
  ⟨registry_and_guard_rejection.2.2.1 [1, 2, 3] (by decide) (Or.inl (by decide)),
   registry_and_guard_rejection.2.2.2.2.2 [1, 2, 3] (by decide) (Or.inl (by decide))⟩

/-- C8: `ConvertToint` returns the big-endian accumulation
`Σ byte[i] * 256 ^ (n - 1 - i)` for widths 1, 2 and 3 and returns zero
without failing for every other width; `ConvertToFloat` returns the identical
big-endian accumulation times the decoder-supplied scalar for its supported
widths (1 and 2). -/
theorem conversions_big_endian :
    ∀ l : List Nat,
      ((l.length = 1 ∨ l.length = 2 ∨ l.length = 3) →
        ConvertToint l = (specBE l : ℤ)) ∧
      (¬(l.length = 1 ∨ l.length = 2 ∨ l.length = 3) → ConvertToint l = 0) ∧
      (∀ s : ℚ, (l.length = 1 ∨ l.length = 2) →
        ConvertToFloat l s = (specBE l : ℚ) * s) := by
  intro l
  match l with
  | [] =>
    refine ⟨fun h => by simp at h, fun _ => rfl, fun s h => by simp at h⟩
  | [a] =>
    have hbe : specBE [a] = a := by simp [specBE, List.range_succ]
    refine ⟨fun _ => ?_, fun h => absurd (Or.inl rfl) h, fun s _ => ?_⟩
    · show (a : ℤ) = (specBE [a] : ℤ)
      rw [hbe]
    · show (a : ℚ) * s = (specBE [a] : ℚ) * s
      rw [hbe]
  | [a, b] =>
    have hbe : specBE [a, b] = 256 * a + b := by
      simp [specBE, List.range_succ]
      ring
    refine ⟨fun _ => ?_, fun h => absurd (Or.inr (Or.inl rfl)) h, fun s _ => ?_⟩
    · show 256 * (a : ℤ) + b = (specBE [a, b] : ℤ)
      rw [hbe]
      push_cast
      ring
    · show ((256 * a + b : ℕ) : ℚ) * s = (specBE [a, b] : ℚ) * s
      rw [hbe]
  | [a, b, c] =>
    have hbe : specBE [a, b, c] = 65536 * a + 256 * b + c := by
      simp [specBE, List.range_succ]
      try ring_nf
      try norm_num
    refine ⟨fun _ => ?_, fun h => absurd (Or.inr (Or.inr rfl)) h,
      fun s h => by simp at h⟩
    show 65536 * (a : ℤ) + 256 * b + c = (specBE [a, b, c] : ℤ)
    rw [hbe]
    push_cast
    ring
  | a :: b :: c :: d :: rest =>
    refine ⟨fun h => ?_, fun _ => rfl, fun s h => ?_⟩ <;>
      · simp only [List.length_cons] at h
        omega

/-- Witness for C8 at the two-byte list `[1, 2]` and one-byte list `[3]`. -/
theorem conversions_big_endian_witness :
    ConvertToint [1, 2] = (specBE [1, 2] : ℤ) ∧
    ConvertToFloat [3] 2 = (specBE [3] : ℚ) * 2 :=
  ⟨(conversions_big_endian [1, 2]).1 (Or.inr (Or.inl rfl)),
   (conversions_big_endian [3]).2.2 2 (Or.inl rfl)⟩

end NefitEMS
